import Mathlib

/-!
Verification development for the weather ETL pipeline orchestrator.

The definitions below are a shallow embedding of the repository code:

* `CpFs`, `check_checkpoint`, `check_pipeline_state`, `get_required_steps`
  embed `src/utils/checkpoints.py`.
* `Stores`, `save_step_data`, `load_step_data`, `create_checkpoint`,
  `execute_step` embed `src/utils/state.py` and
  `src/core/step_executor.py`.
* `RunState`, `run_steps`, `execute_pipeline_model`, `clean_directory`
  embed the step loop and cleanup of `src/core/pipeline.py`.
* `submit_all`, `collect_futures` embed the fan-out result-collection
  loop of `src/steps/transform/weather_data_processing.py`.

Filesystem directories are modelled as association lists of entry names;
machine behaviour such as Python truthiness of optional string arguments
is modelled explicitly (`pyTruthy`).
-/

deriving instance DecidableEq for Except

namespace WeatherETL

/-- Python truthiness of an optional string argument: `None` and the empty
string are falsy (`if failed_step:` in `checkpoints.py`). -/
def pyTruthy : Option String → Bool
  | none => false
  | some s => !(s == "")

/-- The filesystem state seen by `src/utils/checkpoints.py`: whether the
state and checkpoint directories exist, and the names of the entries
directly inside each (files or subdirectories). A checkpoint marker for
step `s` is the entry `s ++ ".done"` in the checkpoint directory; the
state record of step `s` is the entry `s` (its subdirectory) in the state
directory. -/
structure CpFs where
  stateDirExists : Bool
  checkpointDirExists : Bool
  stateEntries : List String
  checkpointEntries : List String
deriving Repr, DecidableEq

/-- `check_checkpoint` in `checkpoints.py`: the file `step.done` exists in
the checkpoint directory. -/
def check_checkpoint (fs : CpFs) (step : String) : Bool :=
  fs.checkpointEntries.contains (step ++ ".done")

/-- `check_pipeline_state` in `checkpoints.py`.  Returns
`(run_from_beginning, last_completed)`.  Mirrors the source: missing
directories or both directories empty mean a fresh start; otherwise the
*last* step (in pipeline order) holding a checkpoint is located, and only
that step's state entry is verified. -/
def check_pipeline_state (fs : CpFs) (pipeline_steps : List String) :
    Bool × Option String :=
  if !fs.stateDirExists || !fs.checkpointDirExists then (true, none)
  else if fs.stateEntries.isEmpty && fs.checkpointEntries.isEmpty then (true, none)
  else
    match pipeline_steps.reverse.find? (fun step => check_checkpoint fs step) with
    | some last =>
        if fs.stateEntries.contains last then (false, some last) else (true, none)
    | none => (false, none)

/-- `get_required_steps` in `checkpoints.py`.  Exceptions raised by the
Python code (`ValueError` from the explicit checks or from `list.index`,
`IndexError` from `pipeline_steps[-1]` on an empty list) become
`Except.error`. -/
def get_required_steps (pipeline_steps : List String) (fs : CpFs)
    (failed_step : Option String) (target_step : Option String) :
    Except String (List String) :=
  let rfb := (check_pipeline_state fs pipeline_steps).1
  if rfb then
    -- `pipeline_steps[:index(target)+1] if target_step else pipeline_steps`
    if pyTruthy target_step then
      match pipeline_steps.indexOf? (target_step.getD "") with
      | some i => .ok (pipeline_steps.take (i + 1))
      | none => .error "ValueError: target step not in list"
    else .ok pipeline_steps
  else
    -- `if target_step is None: target_step = pipeline_steps[-1]`
    let targetRes : Except String String :=
      match target_step with
      | some t => .ok t
      | none =>
          match pipeline_steps.getLast? with
          | some t => .ok t
          | none => .error "IndexError: list index out of range"
    match targetRes with
    | .error e => .error e
    | .ok target =>
      if !(pipeline_steps.contains target) then
        .error "ValueError: target step not in pipeline steps"
      else if pyTruthy failed_step && !(pipeline_steps.contains (failed_step.getD "")) then
        .error "ValueError: failed step not in pipeline steps"
      else if pyTruthy failed_step then
        let start_idx := pipeline_steps.indexOf (failed_step.getD "") + 1
        let end_idx := pipeline_steps.indexOf target + 1
        .ok ((pipeline_steps.drop start_idx).take (end_idx - start_idx))
      else
        match pipeline_steps.findIdx? (fun step => !(check_checkpoint fs step)) with
        | none => .ok pipeline_steps
        | some start_idx =>
            let end_idx := pipeline_steps.indexOf target + 1
            let required := (pipeline_steps.drop start_idx).take (end_idx - start_idx)
            .ok (required.filter (fun step => !(check_checkpoint fs step)))

/-! ### Model of `src/utils/state.py` and `src/core/step_executor.py`

A step payload is modelled as an association list mapping artifact names
to their row counts (the only property the pipeline reads from a
DataFrame is `len(val)`).  A state-store file is either the JSON document
written for the extract step or a CSV file with a row count. -/

/-- In-memory payload of a step: named artifacts with their row counts
(`len(val)` is all the coordinator reads from them). -/
abbrev Payload := List (String × Nat)

/-- Content of one file in a step's state subdirectory. -/
inductive FileContent
  | jsonDoc (payload : Payload)
  | csv (rows : Nat)
deriving Repr, DecidableEq

/-- First value bound to key `k` in an association list (Python dict / a
directory listing keyed by entry name). -/
def alist_lookup {α : Type} (k : String) (l : List (String × α)) : Option α :=
  (l.find? (fun p => p.1 == k)).map Prod.snd

/-- Insert-or-overwrite for an association list, preserving the position
of an existing key (Python dict assignment / overwriting a file). -/
def alist_insert {α : Type} (k : String) (v : α) : List (String × α) → List (String × α)
  | [] => [(k, v)]
  | p :: rest => if p.1 == k then (k, v) :: rest else p :: alist_insert k v rest

/-- Python `del d[k]` on an association list with unique keys. -/
def alist_erase {α : Type} (k : String) (l : List (String × α)) : List (String × α) :=
  l.filter (fun p => !(p.1 == k))

/-- Durable stores of a run namespace: the state directory (step name →
files of its subdirectory) and the checkpoint markers (step names with a
`.done` file), plus existence flags for the two directories themselves. -/
structure Stores where
  stateDirs : List (String × List (String × FileContent))
  checkpoints : List String
  stateDirExists : Bool
  checkpointDirExists : Bool
deriving Repr, DecidableEq

/-- `save_step_data` in `state.py`: `mkdir` the step subdirectory
(`parents=True` also creates the state directory), then write
`raw_data.json` for the extract step or one `name.csv` file per artifact
for every other step, overwriting files of the same name and leaving
other files in the subdirectory alone. -/
def save_step_data (data : Payload) (step : String) (s : Stores) : Stores :=
  let files := (alist_lookup step s.stateDirs).getD []
  let files2 :=
    if step == "extract" then
      alist_insert "raw_data.json" (FileContent.jsonDoc data) files
    else
      data.foldl (fun acc nv => alist_insert (nv.1 ++ ".csv") (FileContent.csv nv.2) acc) files
  { s with stateDirs := alist_insert step files2 s.stateDirs, stateDirExists := true }

/-- Rows obtained by `pd.read_csv` on a state file (a JSON document read
as CSV is irrelevant to the claims; it is given 0 rows). -/
def contentRows : FileContent → Nat
  | .csv rows => rows
  | .jsonDoc _ => 0

/-- `load_step_data` in `state.py`: for the extract step, open
`raw_data.json` (raising `FileNotFoundError` when the subdirectory or the
file is absent); for every other step, glob `*.csv` in the step
subdirectory — a missing subdirectory globs to nothing, so the result is
an empty dictionary, not an error. -/
def load_step_data (step : String) (s : Stores) : Except String Payload :=
  if step == "extract" then
    match alist_lookup step s.stateDirs with
    | none => .error "FileNotFoundError"
    | some files =>
        match alist_lookup "raw_data.json" files with
        | some (.jsonDoc d) => .ok d
        | some (.csv _) => .error "JSONDecodeError"
        | none => .error "FileNotFoundError"
  else
    let files := (alist_lookup step s.stateDirs).getD []
    .ok ((files.filter (fun nf => nf.1.endsWith ".csv")).map
      (fun nf => (nf.1.replace ".csv" "", contentRows nf.2)))

/-- `create_checkpoint` in `checkpoints.py`: `touch` the `step.done`
marker — idempotent creation. -/
def create_checkpoint (s : Stores) (step : String) : Stores :=
  if s.checkpoints.contains step then s
  else { s with checkpoints := s.checkpoints ++ [step] }

/-- The keys of the `step_functions` dictionary in `step_executor.py`. -/
def step_names : List String := ["extract", "transform", "dq_checks", "analyze", "load"]

/-- Input handed to a step handler by the coordinator: the whole working
dictionary for the first pipeline step, the predecessor's payload
otherwise. -/
inductive PipeInput
  | whole (d : List (String × Payload))
  | payload (p : Payload)

/-- `execute_step` in `step_executor.py`: look the step up in
`step_functions` (an unknown name raises `KeyError` before any handler
runs), invoke the handler (`impl` carries the business logic of the five
registered handlers), and on success save the state record first and
create the checkpoint second.  Any raised exception is re-raised with the
stores untouched. -/
def execute_step (impl : String → PipeInput → Except String Payload)
    (step : String) (data : PipeInput) (s : Stores) :
    Except String Payload × Stores :=
  if step_names.contains step then
    match impl step data with
    | .error e => (.error e, s)
    | .ok result => (.ok result, create_checkpoint (save_step_data result step s) step)
  else (.error ("KeyError: " ++ step), s)

/-! ### Model of the step loop and cleanup of `src/core/pipeline.py` -/

/-- One entry of a step's `metadata.json` history, as built by
`log_metadata` in `state.py` (`input_files` / `output_files` are the
`(key, rows)` descriptors the pipeline computes; timestamps are kept
abstract as the supplied duration). -/
structure Metadata where
  step : String
  status : String
  duration : Nat
  inputFiles : List (String × Nat)
  outputFiles : List (String × Nat)
  errorText : Option String
deriving Repr, DecidableEq

/-- `save_step_metadata` in `state.py`: read the step's existing
`metadata.json` array (empty when absent) and append the new entry. -/
def save_step_metadata (step : String) (md : Metadata)
    (metrics : List (String × List Metadata)) : List (String × List Metadata) :=
  alist_insert step ((alist_lookup step metrics).getD [] ++ [md]) metrics

/-- `get_previous_state` in `state.py`: the step before `state` in
pipeline order, the empty string for the first step or an unknown step. -/
def get_previous_state (state : String) (pipeline_states : List String) : String :=
  match pipeline_states.indexOf? state with
  | none => ""
  | some 0 => ""
  | some (i + 1) => pipeline_states.getD i ""

/-- The run-visible state threaded through the step loop of
`execute_pipeline`: durable stores, the per-step metadata histories in
the metrics directory, and the in-memory working dictionary `data`. -/
structure RunState where
  stores : Stores
  metrics : List (String × List Metadata)
  data : List (String × Payload)
deriving Repr, DecidableEq

/-- Input resolution of one loop iteration of `execute_pipeline`: the
whole working dictionary when the step has no predecessor, otherwise
`data[prev]` (a missing key raises `KeyError`). -/
def resolve_input (prev : String) (data : List (String × Payload)) :
    Except String PipeInput :=
  if prev == "" then .ok (.whole data)
  else
    match alist_lookup prev data with
    | some p => .ok (.payload p)
    | none => .error ("KeyError: " ++ prev)

/-- The tail of a successful loop iteration of `execute_pipeline`: record
the step output in the working dictionary; when `save_metadata` is
enabled, additionally append the `completed` metadata entry (input
descriptors from the predecessor payload or the input file, output
descriptors from the result, the measured duration) and delete the
predecessor's in-memory output. -/
def after_success (saveMeta : Bool) (dur : String → Nat)
    (input_desc : List (String × Nat)) (prev step : String) (result : Payload)
    (s2 : Stores) (rs : RunState) : RunState :=
  let rs1 : RunState :=
    { stores := s2, metrics := rs.metrics,
      data := alist_insert step result rs.data }
  if saveMeta then
    let inputs :=
      if prev == "" then input_desc
      else (alist_lookup prev rs.data).getD []
    let md : Metadata :=
      { step := step, status := "completed", duration := dur step,
        inputFiles := inputs, outputFiles := result, errorText := none }
    let metrics2 := save_step_metadata step md rs.metrics
    let data2 := if prev == "" then rs1.data else alist_erase prev rs1.data
    { rs1 with metrics := metrics2, data := data2 }
  else rs1

/-- The `for step in required_steps` loop of `execute_pipeline`
(`pipeline.py` lines 121–179).  Arguments: `impl` the registered
handlers, `saveMeta` the `config.steps.save_metadata` flag, `pipeline`
the configured execution order, `dur` the measured duration of each step,
`input_desc` the file descriptor recorded for a step with no predecessor.
Returns the final run state together with the failing step and exception
when a step raised (the exception aborts the loop; durable state keeps
whatever was written before it). -/
def run_steps (impl : String → PipeInput → Except String Payload)
    (saveMeta : Bool) (pipeline : List String) (dur : String → Nat)
    (input_desc : List (String × Nat)) :
    List String → RunState → RunState × Option (String × String)
  | [], rs => (rs, none)
  | step :: rest, rs =>
    let prev := get_previous_state step pipeline
    match resolve_input prev rs.data with
    | .error e => (rs, some (step, e))
    | .ok input =>
      match execute_step impl step input rs.stores with
      | (.error e, _) => (rs, some (step, e))
      | (.ok result, s2) =>
          run_steps impl saveMeta pipeline dur input_desc rest
            (after_success saveMeta dur input_desc prev step result s2 rs)

/-- `clean_directory` in `state.py`, applied to the checkpoint and state
directories: with `keepDir` every file and subdirectory inside them is
removed but the directories themselves survive; without it the
directories are removed entirely (`shutil.rmtree`). -/
def clean_directory (keepDir : Bool) (s : Stores) : Stores :=
  if keepDir then { s with stateDirs := [], checkpoints := [] }
  else { stateDirs := [], checkpoints := [],
         stateDirExists := false, checkpointDirExists := false }

/-- `execute_pipeline` after planning (`pipeline.py`): run the required
steps; only when every step succeeded, clean the checkpoint and state
directories (`keep_dir=True` default), leaving the metrics directory
untouched. -/
def execute_pipeline_model (impl : String → PipeInput → Except String Payload)
    (saveMeta : Bool) (pipeline : List String) (dur : String → Nat)
    (input_desc : List (String × Nat)) (required_steps : List String)
    (rs : RunState) : RunState × Option (String × String) :=
  match run_steps impl saveMeta pipeline dur input_desc required_steps rs with
  | (rs2, none) => ({ rs2 with stores := clean_directory true rs2.stores }, none)
  | (rs2, some e) => (rs2, some e)

/-! ### Model of the fan-out collection loop in
`src/steps/transform/weather_data_processing.py` -/

/-- The submission phase of `_get_parsed_weather_dataframes`: every item
is submitted to the pool (one future per key) before any result is
consumed. -/
def submit_all {A R : Type} (worker : String → A → Except String R)
    (items : List (String × A)) : List (String × Except String R) :=
  items.map (fun ka => (ka.1, worker ka.1 ka.2))

/-- The `for future in as_completed(futures)` loop of
`_get_parsed_weather_dataframes`, applied to the completed futures in
completion order: successful results are appended in order, and the first
failed future's exception is re-raised immediately (the bare worker
exception — the failing key is only logged). -/
def collect_futures {R : Type} : List (String × Except String R) → Except String (List R)
  | [] => .ok []
  | (_, .error e) :: _ => .error e
  | (_, .ok r) :: rest =>
      match collect_futures rest with
      | .error e => .error e
      | .ok rs => .ok (r :: rs)

/-! ### Helper lemmas -/

theorem alist_lookup_nil {α : Type} (k : String) : alist_lookup k ([] : List (String × α)) = none := rfl

theorem alist_lookup_cons {α : Type} (p : String × α) (l : List (String × α)) (k : String) :
    alist_lookup k (p :: l) = if p.1 = k then some p.2 else alist_lookup k l := by
  by_cases h : p.1 = k
  · simp [alist_lookup, List.find?_cons, h]
  · simp [alist_lookup, List.find?_cons, h]

theorem alist_lookup_insert_self {α : Type} (k : String) (v : α) (l : List (String × α)) :
    alist_lookup k (alist_insert k v l) = some v := by
  induction l with
  | nil => simp [alist_insert, alist_lookup_cons]
  | cons p rest ih =>
      by_cases h : p.1 = k
      · simp [alist_insert, alist_lookup_cons, h]
      · simpa [alist_insert, alist_lookup_cons, h] using ih

theorem alist_lookup_insert_ne {α : Type} (k k2 : String) (v : α) (l : List (String × α))
    (h : k ≠ k2) : alist_lookup k (alist_insert k2 v l) = alist_lookup k l := by
  have hne : ¬ (k2 = k) := fun h2 => h h2.symm
  induction l with
  | nil => simp [alist_insert, alist_lookup_cons, hne]
  | cons p rest ih =>
      by_cases hp : p.1 = k2
      · simp [alist_insert, alist_lookup_cons, hp, hne]
      · simp [alist_insert, alist_lookup_cons, hp, ih]

theorem alist_lookup_erase_self {α : Type} (k : String) (l : List (String × α)) :
    alist_lookup k (alist_erase k l) = none := by
  induction l with
  | nil => rfl
  | cons p rest ih =>
      by_cases h : p.1 = k
      · simpa [alist_erase, alist_lookup_cons, h] using ih
      · simpa [alist_erase, alist_lookup_cons, h, List.filter_cons] using ih

theorem create_checkpoint_stateDirs (s : Stores) (step : String) :
    (create_checkpoint s step).stateDirs = s.stateDirs := by
  unfold create_checkpoint; split <;> rfl

theorem create_checkpoint_mem (s : Stores) (step st : String) :
    st ∈ (create_checkpoint s step).checkpoints ↔ (st ∈ s.checkpoints ∨ st = step) := by
  unfold create_checkpoint
  split
  · next hc =>
      constructor
      · exact Or.inl
      · rintro (h | rfl)
        · exact h
        · simpa using hc
  · simp

theorem save_step_data_checkpoints (p : Payload) (step : String) (s : Stores) :
    (save_step_data p step s).checkpoints = s.checkpoints := rfl

theorem save_step_data_lookup_self (p : Payload) (step : String) (s : Stores) :
    (alist_lookup step (save_step_data p step s).stateDirs).isSome = true := by
  simp [save_step_data, alist_lookup_insert_self]

theorem save_step_data_lookup_mono (p : Payload) (step st : String) (s : Stores)
    (h : (alist_lookup st s.stateDirs).isSome = true) :
    (alist_lookup st (save_step_data p step s).stateDirs).isSome = true := by
  by_cases hst : st = step
  · subst hst; exact save_step_data_lookup_self p st s
  · simpa [save_step_data, alist_lookup_insert_ne st step _ _ hst] using h

theorem execute_step_ok (impl : String → PipeInput → Except String Payload)
    (step : String) (data : PipeInput) (s s2 : Stores) (r : Payload)
    (h : execute_step impl step data s = (.ok r, s2)) :
    s2 = create_checkpoint (save_step_data r step s) step := by
  unfold execute_step at h
  split at h
  · split at h
    · simp [Prod.ext_iff] at h
    · next result heq =>
        rw [Prod.ext_iff] at h
        obtain ⟨h1, h2⟩ := h
        obtain rfl : result = r := by simpa using h1
        exact h2.symm
  · simp [Prod.ext_iff] at h

theorem execute_step_ok_checkpoint_mono (impl : String → PipeInput → Except String Payload)
    (step : String) (data : PipeInput) (s s2 : Stores) (r : Payload)
    (h : execute_step impl step data s = (.ok r, s2)) (st : String)
    (hmem : st ∈ s.checkpoints) : st ∈ s2.checkpoints := by
  rw [execute_step_ok impl step data s s2 r h]
  refine (create_checkpoint_mem _ step st).mpr (Or.inl ?_)
  rwa [save_step_data_checkpoints]

theorem after_success_stores (saveMeta : Bool) (dur : String → Nat)
    (input_desc : List (String × Nat)) (prev step : String) (result : Payload)
    (s2 : Stores) (rs : RunState) :
    (after_success saveMeta dur input_desc prev step result s2 rs).stores = s2 := by
  cases saveMeta <;> rfl

theorem after_success_metrics_ne (saveMeta : Bool) (dur : String → Nat)
    (input_desc : List (String × Nat)) (prev step : String) (result : Payload)
    (s2 : Stores) (rs : RunState) (st : String) (hne : st ≠ step) :
    alist_lookup st (after_success saveMeta dur input_desc prev step result s2 rs).metrics =
      alist_lookup st rs.metrics := by
  cases saveMeta with
  | false => rfl
  | true =>
      show alist_lookup st (save_step_metadata step _ rs.metrics) = _
      unfold save_step_metadata
      exact alist_lookup_insert_ne st step _ _ hne

theorem execute_step_error (impl : String → PipeInput → Except String Payload)
    (step : String) (data : PipeInput) (s s2 : Stores) (e : String)
    (h : execute_step impl step data s = (.error e, s2)) : s2 = s := by
  unfold execute_step at h
  split at h
  · split at h
    · rw [Prod.mk.injEq] at h; exact h.2.symm
    · rw [Prod.mk.injEq] at h; exact absurd h.1 (by simp)
  · rw [Prod.mk.injEq] at h; exact h.2.symm

theorem execute_step_ok_checkpoint_new (impl : String → PipeInput → Except String Payload)
    (step : String) (data : PipeInput) (s s2 : Stores) (r : Payload)
    (h : execute_step impl step data s = (.ok r, s2)) (st : String)
    (hmem : st ∈ s2.checkpoints) : st ∈ s.checkpoints ∨ st = step := by
  rw [execute_step_ok impl step data s s2 r h] at hmem
  have h2 := (create_checkpoint_mem _ step st).mp hmem
  rwa [save_step_data_checkpoints] at h2

/-! ### Claim theorems -/

/-- Claim C1: for every step executed by the coordinator, the step state
payload is persisted to the state store before its checkpoint marker is
created (so the invariant also holds at the intermediate point, after the
state write and before the checkpoint write); if the handler raises,
neither a state record nor a checkpoint is written; hence a checkpoint for
a step exists only if that step's state record exists. -/
theorem c1_checkpoint_only_after_state
    (impl : String → PipeInput → Except String Payload)
    (step : String) (data : PipeInput) (s : Stores)
    (hinv : ∀ st, st ∈ s.checkpoints → (alist_lookup st s.stateDirs).isSome = true) :
    (∀ st, st ∈ (execute_step impl step data s).2.checkpoints →
        (alist_lookup st (execute_step impl step data s).2.stateDirs).isSome = true) ∧
    (∀ e, (execute_step impl step data s).1 = .error e →
        (execute_step impl step data s).2 = s) ∧
    (∀ p st, st ∈ (save_step_data p step s).checkpoints →
        (alist_lookup st (save_step_data p step s).stateDirs).isSome = true) := by
  refine ⟨?_, ?_, ?_⟩
  · intro st hmem
    rcases hres : execute_step impl step data s with ⟨exc, s2⟩
    rw [hres] at hmem
    show (alist_lookup st s2.stateDirs).isSome = true
    replace hmem : st ∈ s2.checkpoints := hmem
    cases exc with
    | error e =>
        rw [execute_step_error impl step data s s2 e hres] at hmem ⊢
        exact hinv st hmem
    | ok r =>
        rw [execute_step_ok impl step data s s2 r hres] at hmem ⊢
        simp only [create_checkpoint_stateDirs]
        have h2 := (create_checkpoint_mem _ step st).mp hmem
        rw [save_step_data_checkpoints] at h2
        rcases h2 with hold | rfl
        · exact save_step_data_lookup_mono r step st s (hinv st hold)
        · exact save_step_data_lookup_self r st s
  · intro e herr
    rcases hres : execute_step impl step data s with ⟨exc, s2⟩
    rw [hres] at herr
    replace herr : exc = .error e := herr
    subst herr
    show s2 = s
    exact execute_step_error impl step data s s2 e hres
  · intro p st hmem
    rw [save_step_data_checkpoints] at hmem
    exact save_step_data_lookup_mono p step st s (hinv st hmem)

/-- Witness for C1 at a concrete input: starting from empty stores (which
satisfy the invariant), a successful extract handler leads to stores
where the new `extract` checkpoint has a matching state record. -/
theorem c1_witness :
    (alist_lookup "extract"
      (execute_step (fun _ _ => .ok [("raw", 1)]) "extract" (.whole [])
        (Stores.mk [] [] true true)).2.stateDirs).isSome = true := by
  have h0 : ∀ st, st ∈ (Stores.mk [] [] true true).checkpoints →
      (alist_lookup st (Stores.mk [] [] true true).stateDirs).isSome = true := by
    intro st hmem; simp at hmem
  exact (c1_checkpoint_only_after_state (fun _ _ => .ok [("raw", 1)]) "extract"
    (.whole []) (Stores.mk [] [] true true) h0).1 "extract" (by decide)

/-- Claim C10: a step name outside the five registered steps raises a
lookup error before the handler runs (the result does not depend on the
handlers at all), and the checkpoint and state stores are unchanged. -/
theorem c10_unknown_step
    (impl : String → PipeInput → Except String Payload)
    (step : String) (data : PipeInput) (s : Stores)
    (h : step_names.contains step = false) :
    execute_step impl step data s = (.error ("KeyError: " ++ step), s) := by
  have hnot : ¬ step ∈ step_names := by simpa using h
  simp [execute_step, hnot]

/-- Witness for C10: the unregistered step name `profiling`. -/
theorem c10_witness :
    step_names.contains "profiling" = false ∧
    execute_step (fun _ _ => .ok []) "profiling" (.whole []) (Stores.mk [] [] true true) =
      (.error ("KeyError: " ++ "profiling"), Stores.mk [] [] true true) :=
  ⟨by decide, c10_unknown_step (fun _ _ => .ok []) "profiling" (.whole [])
    (Stores.mk [] [] true true) (by decide)⟩

/-- Counterexample to claim C4 as stated: for the `transform` step with no
state record in the store (`alist_lookup` is `none`), loading does not
fail with a not-found error — it returns an empty dictionary. -/
theorem c4_counterexample :
    alist_lookup "transform" (Stores.mk [] [] true true).stateDirs = none ∧
    load_step_data "transform" (Stores.mk [] [] true true) = .ok [] := by
  exact ⟨rfl, rfl⟩

/-- Claim C4 (amended): loading a step payload fails with a not-found
error when no record exists only for the `extract` step; for every other
step a missing record yields an empty payload dictionary instead of an
error. -/
theorem c4_load_missing_record (s : Stores) (step : String)
    (hmiss : alist_lookup step s.stateDirs = none) :
    (step = "extract" → load_step_data step s = .error "FileNotFoundError") ∧
    (step ≠ "extract" → load_step_data step s = .ok []) := by
  constructor
  · intro h; subst h; simp [load_step_data, hmiss]
  · intro h
    have hb : (step == "extract") = false := by simpa using h
    simp [load_step_data, hb, hmiss]

/-- Witness for C4 (amended) at concrete inputs: the `analyze` step with
an empty store loads as an empty dictionary, and `extract` fails. -/
theorem c4_witness :
    load_step_data "analyze" (Stores.mk [] [] true true) = .ok [] ∧
    load_step_data "extract" (Stores.mk [] [] true true) = .error "FileNotFoundError" :=
  ⟨(c4_load_missing_record (Stores.mk [] [] true true) "analyze" rfl).2 (by decide),
   (c4_load_missing_record (Stores.mk [] [] true true) "extract" rfl).1 rfl⟩

/-- Counterexample to claim C6 as stated: two completion orders of five
items in which different items (keys 3 and 2) fail with the same worker
exception produce the identical raised error, so the raised error cannot
identify the failing item's key, and none of the four successful sibling
results is surfaced. -/
theorem c6_counterexample :
    collect_futures [("3", .error "boom"), ("1", .ok (1 : Nat)), ("2", .ok 2),
        ("4", .ok 4), ("5", .ok 5)] = .error "boom" ∧
    collect_futures [("2", .error "boom"), ("1", .ok (1 : Nat)), ("3", .ok 3),
        ("4", .ok 4), ("5", .ok 5)] = .error "boom" ∧
    ("3" : String) ≠ "2" := by
  refine ⟨rfl, rfl, by decide⟩

/-- Claim C6 (amended): the fan-out executor submits every item before
consuming any result (one future per item key), but when the first future
in completion order has failed, the collection loop immediately re-raises
that worker's bare exception — independent of however many sibling
futures are still pending and without attaching the failing item's key. -/
theorem c6_first_failure_propagates {A R : Type}
    (worker : String → A → Except String R) (items : List (String × A))
    (k e : String) (rest : List (String × Except String R)) :
    (submit_all worker items).map Prod.fst = items.map Prod.fst ∧
    collect_futures ((k, .error e) :: rest) = .error e := by
  constructor
  · simp [submit_all]
  · rfl

/-- Counterexample to claim C2 as stated: in the pipeline `[a, b, c]` a
checkpoint exists for step `a` whose state record is missing, yet —
because the consistency check only inspects the last checkpointed step
`b`, whose state is present — the resolved plan is `[c]`, not the full
step list. -/
theorem c2_counterexample :
    check_checkpoint (CpFs.mk true true ["b"] ["a.done", "b.done"]) "a" = true ∧
    (CpFs.mk true true ["b"] ["a.done", "b.done"]).stateEntries.contains "a" = false ∧
    get_required_steps ["a", "b", "c"] (CpFs.mk true true ["b"] ["a.done", "b.done"])
      none none = .ok ["c"] ∧
    (["c"] : List String) ≠ ["a", "b", "c"] := by
  refine ⟨rfl, rfl, by decide, by decide⟩

/-- Claim C2 (amended): the consistency repair only covers the *last*
checkpointed step in pipeline order — when the last step holding a
checkpoint has no state record, the plan (with no target step supplied)
is the full step list from the beginning, for any `failed_step`
argument.  A missing state record of an earlier checkpointed step is not
detected (see the counterexample). -/
theorem c2_missing_state_restarts (pipeline : List String) (fs : CpFs) (k : String)
    (hsd : fs.stateDirExists = true) (hcd : fs.checkpointDirExists = true)
    (hlast : pipeline.reverse.find? (fun s => check_checkpoint fs s) = some k)
    (hmiss : fs.stateEntries.contains k = false)
    (failed : Option String) :
    get_required_steps pipeline fs failed none = .ok pipeline := by
  have hk : check_checkpoint fs k = true := List.find?_some hlast
  have hdone : (k ++ ".done") ∈ fs.checkpointEntries := by
    simpa [check_checkpoint] using hk
  have hne : fs.checkpointEntries.isEmpty = false := by
    cases hcp : fs.checkpointEntries with
    | nil => rw [hcp] at hdone; simp at hdone
    | cons a l => simp
  have hmiss2 : k ∉ fs.stateEntries := by simpa using hmiss
  have hcps : check_pipeline_state fs pipeline = (true, none) := by
    unfold check_pipeline_state
    rw [hsd, hcd, hlast, hne]
    simp [hmiss2]
  simp [get_required_steps, hcps, pyTruthy]

/-- Witness for C2 (amended): checkpoints exist for `a` and `b`, the last
checkpointed step `b` has no state record, so the plan is the full list. -/
theorem c2_witness :
    get_required_steps ["a", "b", "c"] (CpFs.mk true true ["a"] ["a.done", "b.done"])
      none none = .ok ["a", "b", "c"] :=
  c2_missing_state_restarts ["a", "b", "c"] (CpFs.mk true true ["a"] ["a.done", "b.done"])
    "b" rfl rfl (by decide) (by decide) none

/-- Claim C3: with a consistent, non-empty checkpoint/state namespace
(the consistency check does not force a restart), supplying a member
`failed_step` makes the plan exactly the contiguous slice of the pipeline
from the step after `failed_step` through the target step — no step of
that range is dropped on account of an existing checkpoint. -/
theorem c3_forced_restart (pipeline : List String) (fs : CpFs) (f t : String)
    (hrfb : (check_pipeline_state fs pipeline).1 = false)
    (hf : pipeline.contains f = true) (hfne : f ≠ "")
    (ht : pipeline.contains t = true) :
    get_required_steps pipeline fs (some f) (some t) =
      .ok ((pipeline.drop (pipeline.indexOf f + 1)).take
        (pipeline.indexOf t - pipeline.indexOf f)) := by
  have hpt : pyTruthy (some f) = true := by simp [pyTruthy, hfne]
  have hf2 : f ∈ pipeline := by simpa using hf
  have ht2 : t ∈ pipeline := by simpa using ht
  simp [get_required_steps, hrfb, hf2, ht2, hpt, Nat.succ_sub_succ]

/-- Witness for C3: pipeline `[a, b, c, d]` with a checkpoint for `c`
already present, forced restart after `a` with target `d`: the plan is
`[b, c, d]`, keeping `c` despite its checkpoint. -/
theorem c3_witness :
    get_required_steps ["a", "b", "c", "d"] (CpFs.mk true true ["c"] ["c.done"])
      (some "a") (some "d") = .ok ["b", "c", "d"] :=
  (c3_forced_restart ["a", "b", "c", "d"] (CpFs.mk true true ["c"] ["c.done"])
    "a" "d" (by decide) (by decide) (by decide) (by decide)).trans (by decide)

/-- Counterexample to claim C7 as stated: with existing but empty
checkpoint/state directories (a run-from-beginning situation), a
`failed_step` that is not a member of the pipeline is silently ignored
and the full plan is returned instead of failing with an invalid-step
error. -/
theorem c7_counterexample :
    (["a", "b"] : List String).contains "z" = false ∧
    get_required_steps ["a", "b"] (CpFs.mk true true [] []) (some "z") none =
      .ok ["a", "b"] := by
  refine ⟨by decide, by decide⟩

/-- Claim C7 (amended): the membership validation runs only when the
pipeline is not restarting from the beginning: in that case an unknown
target step or an unknown (truthy) failed step raises a ValueError.  In
run-from-beginning mode, an unknown failed step is silently ignored and
the full plan is returned. -/
theorem c7_invalid_step_validation (pipeline : List String) (fs : CpFs) (t f : String)
    (hrfb : (check_pipeline_state fs pipeline).1 = false)
    (ht : pipeline.contains t = false)
    (hf : pipeline.contains f = false) (hfne : f ≠ "")
    (hne : pipeline ≠ []) :
    get_required_steps pipeline fs none (some t) =
      .error "ValueError: target step not in pipeline steps" ∧
    get_required_steps pipeline fs (some f) none =
      .error "ValueError: failed step not in pipeline steps" ∧
    (∀ fs2 : CpFs, (check_pipeline_state fs2 pipeline).1 = true →
      get_required_steps pipeline fs2 (some f) none = .ok pipeline) := by
  have ht2 : t ∉ pipeline := by simpa using ht
  have hf2 : f ∉ pipeline := by simpa using hf
  refine ⟨?_, ?_, ?_⟩
  · simp [get_required_steps, hrfb, ht2]
  · cases hgl : pipeline.getLast? with
    | none => exact absurd (List.getLast?_eq_none_iff.mp hgl) hne
    | some last =>
        have hmem : last ∈ pipeline := by
          obtain ⟨h, rfl⟩ := List.mem_getLast?_eq_getLast (l := pipeline) (x := last)
            (by simp [Option.mem_def, hgl])
          exact List.getLast_mem h
        have hpt : pyTruthy (some f) = true := by simp [pyTruthy, hfne]
        simp [get_required_steps, hrfb, hgl, hmem, hpt, hf2]
  · intro fs2 hrfb2
    simp [get_required_steps, hrfb2, pyTruthy]

/-- Witness for C7 (amended) at concrete inputs: pipeline `[a, b]` with a
consistent non-empty namespace rejects the unknown step `z` as target and
as failed step, while the same call with empty directories returns the
full plan. -/
theorem c7_witness :
    get_required_steps ["a", "b"] (CpFs.mk true true ["a"] ["a.done"]) none (some "z") =
      .error "ValueError: target step not in pipeline steps" ∧
    get_required_steps ["a", "b"] (CpFs.mk true true ["a"] ["a.done"]) (some "z") none =
      .error "ValueError: failed step not in pipeline steps" ∧
    get_required_steps ["a", "b"] (CpFs.mk true true [] []) (some "z") none =
      .ok ["a", "b"] := by
  have h := c7_invalid_step_validation ["a", "b"] (CpFs.mk true true ["a"] ["a.done"])
    "z" "z" (by decide) (by decide) (by decide) (by decide) (by decide)
  exact ⟨h.1, h.2.1, h.2.2 (CpFs.mk true true [] []) (by decide)⟩

/-- Counterexample to claim C5 as stated: in a two-step run where the
`transform` handler raises, the run records *no* metadata entry at all
for `transform` — in particular no record with status `failed` (the
failure is only logged and re-raised).  The rest of the claim does hold:
no checkpoint for `transform`, and the `extract` checkpoint is intact. -/
theorem c5_counterexample :
    (run_steps (fun st _ => if st == "transform" then .error "boom" else .ok [("raw", 1)])
      true ["extract", "transform"] (fun _ => 1) [("file", 10)]
      ["extract", "transform"] (RunState.mk (Stores.mk [] [] true true) [] [])).2 =
      some ("transform", "boom") ∧
    alist_lookup "transform"
      (run_steps (fun st _ => if st == "transform" then .error "boom" else .ok [("raw", 1)])
        true ["extract", "transform"] (fun _ => 1) [("file", 10)]
        ["extract", "transform"] (RunState.mk (Stores.mk [] [] true true) [] [])).1.metrics =
      none ∧
    "transform" ∉
      (run_steps (fun st _ => if st == "transform" then .error "boom" else .ok [("raw", 1)])
        true ["extract", "transform"] (fun _ => 1) [("file", 10)]
        ["extract", "transform"] (RunState.mk (Stores.mk [] [] true true) [] [])).1.stores.checkpoints ∧
    "extract" ∈
      (run_steps (fun st _ => if st == "transform" then .error "boom" else .ok [("raw", 1)])
        true ["extract", "transform"] (fun _ => 1) [("file", 10)]
        ["extract", "transform"] (RunState.mk (Stores.mk [] [] true true) [] [])).1.stores.checkpoints := by
  refine ⟨by decide, by decide, by decide, by decide⟩

/-- Claim C5 (amended): whenever a step of a run (with distinct step
names) raises, the run appends no metadata record for that step — the
failure is only logged and the exception re-raised — while creating no
checkpoint for the failing step and leaving every previously existing
checkpoint intact. -/
theorem c5_failed_step_effects
    (impl : String → PipeInput → Except String Payload) (saveMeta : Bool)
    (pipeline : List String) (dur : String → Nat) (input_desc : List (String × Nat))
    (steps : List String) (rs rsF : RunState) (s e : String)
    (hrun : run_steps impl saveMeta pipeline dur input_desc steps rs = (rsF, some (s, e)))
    (hnd : steps.Nodup) :
    s ∈ steps ∧
    alist_lookup s rsF.metrics = alist_lookup s rs.metrics ∧
    (∀ st, st ∈ rs.stores.checkpoints → st ∈ rsF.stores.checkpoints) ∧
    (s ∈ rsF.stores.checkpoints → s ∈ rs.stores.checkpoints) := by
  induction steps generalizing rs with
  | nil =>
      simp only [run_steps] at hrun
      rw [Prod.mk.injEq] at hrun
      exact absurd hrun.2 (by simp)
  | cons step rest ih =>
      obtain ⟨hstep_nin, hndrest⟩ := List.nodup_cons.mp hnd
      simp only [run_steps] at hrun
      split at hrun
      · rw [Prod.mk.injEq] at hrun
        obtain ⟨hrs, hse⟩ := hrun
        obtain ⟨rfl, rfl⟩ : step = s ∧ _ = e := by simpa using hse
        subst hrs
        exact ⟨List.mem_cons_self _ _, rfl, fun st h => h, fun h => h⟩
      · split at hrun
        · rw [Prod.mk.injEq] at hrun
          obtain ⟨hrs, hse⟩ := hrun
          obtain ⟨rfl, rfl⟩ : step = s ∧ _ = e := by simpa using hse
          subst hrs
          exact ⟨List.mem_cons_self _ _, rfl, fun st h => h, fun h => h⟩
        · next result s2 heq =>
            obtain ⟨hs_rest, hmet, hcpmono, hcpback⟩ := ih _ hrun hndrest
            have hsne : s ≠ step := fun h => hstep_nin (h ▸ hs_rest)
            refine ⟨List.mem_cons_of_mem _ hs_rest, ?_, ?_, ?_⟩
            · rw [hmet]
              exact after_success_metrics_ne saveMeta dur input_desc _ step result s2 rs s hsne
            · intro st hmem
              apply hcpmono
              rw [after_success_stores]
              exact execute_step_ok_checkpoint_mono impl step _ rs.stores s2 result heq st hmem
            · intro hmem
              have h2 := hcpback hmem
              rw [after_success_stores] at h2
              rcases execute_step_ok_checkpoint_new impl step _ rs.stores s2 result heq s h2 with
                hold | heqs
              · exact hold
              · exact absurd heqs hsne

/-- Witness for C5 (amended) at a concrete failing run: `extract`
succeeds, `transform` raises, and the failing step keeps no metadata and
gains no checkpoint. -/
theorem c5_witness :
    "transform" ∈ ["extract", "transform"] ∧
    alist_lookup "transform"
      (run_steps (fun st _ => if st == "transform" then .error "boom" else .ok [("x", 2)])
        false ["extract", "transform"] (fun _ => 3) [("file", 7)]
        ["extract", "transform"] (RunState.mk (Stores.mk [] ["old"] true true) [] [])).1.metrics =
      alist_lookup "transform" (RunState.mk (Stores.mk [] ["old"] true true) [] []).metrics ∧
    "old" ∈ (run_steps (fun st _ => if st == "transform" then .error "boom" else .ok [("x", 2)])
        false ["extract", "transform"] (fun _ => 3) [("file", 7)]
        ["extract", "transform"] (RunState.mk (Stores.mk [] ["old"] true true) [] [])).1.stores.checkpoints := by
  have h := c5_failed_step_effects
    (fun st _ => if st == "transform" then .error "boom" else .ok [("x", 2)])
    false ["extract", "transform"] (fun _ => 3) [("file", 7)]
    ["extract", "transform"]
    (RunState.mk (Stores.mk [] ["old"] true true) [] [])
    ((run_steps (fun st _ => if st == "transform" then .error "boom" else .ok [("x", 2)])
      false ["extract", "transform"] (fun _ => 3) [("file", 7)]
      ["extract", "transform"] (RunState.mk (Stores.mk [] ["old"] true true) [] [])).1)
    "transform" "boom" (by decide) (by decide)
  exact ⟨h.1, h.2.1, h.2.2.1 "old" (by decide)⟩

/-- Claim C8: after a fully successful run of the required steps, cleanup
empties the checkpoint store and the state store of the run namespace
while preserving the two directories themselves (their existence flags
are unchanged), and leaves every metadata (metrics) entry exactly as the
run wrote it. -/
theorem c8_cleanup_frame
    (impl : String → PipeInput → Except String Payload) (saveMeta : Bool)
    (pipeline : List String) (dur : String → Nat) (input_desc : List (String × Nat))
    (required_steps : List String) (rs rs2 : RunState)
    (hrun : run_steps impl saveMeta pipeline dur input_desc required_steps rs = (rs2, none)) :
    (execute_pipeline_model impl saveMeta pipeline dur input_desc required_steps rs).2 = none ∧
    (execute_pipeline_model impl saveMeta pipeline dur input_desc required_steps rs).1.stores.stateDirs = [] ∧
    (execute_pipeline_model impl saveMeta pipeline dur input_desc required_steps rs).1.stores.checkpoints = [] ∧
    (execute_pipeline_model impl saveMeta pipeline dur input_desc required_steps rs).1.stores.stateDirExists =
      rs2.stores.stateDirExists ∧
    (execute_pipeline_model impl saveMeta pipeline dur input_desc required_steps rs).1.stores.checkpointDirExists =
      rs2.stores.checkpointDirExists ∧
    (execute_pipeline_model impl saveMeta pipeline dur input_desc required_steps rs).1.metrics =
      rs2.metrics := by
  unfold execute_pipeline_model
  rw [hrun]
  simp [clean_directory]

/-- Witness for C8 at a concrete fully successful two-step run with
metadata saving enabled: both stores end empty, the directories survive,
and the two `completed` metadata entries survive cleanup. -/
theorem c8_witness :
    (execute_pipeline_model (fun _ _ => .ok [("raw", 1)]) true ["extract", "transform"]
      (fun _ => 1) [("file", 10)] ["extract", "transform"]
      (RunState.mk (Stores.mk [] [] true true) [] [])).2 = none ∧
    (execute_pipeline_model (fun _ _ => .ok [("raw", 1)]) true ["extract", "transform"]
      (fun _ => 1) [("file", 10)] ["extract", "transform"]
      (RunState.mk (Stores.mk [] [] true true) [] [])).1.stores.stateDirs = [] ∧
    (execute_pipeline_model (fun _ _ => .ok [("raw", 1)]) true ["extract", "transform"]
      (fun _ => 1) [("file", 10)] ["extract", "transform"]
      (RunState.mk (Stores.mk [] [] true true) [] [])).1.stores.checkpoints = [] ∧
    (execute_pipeline_model (fun _ _ => .ok [("raw", 1)]) true ["extract", "transform"]
      (fun _ => 1) [("file", 10)] ["extract", "transform"]
      (RunState.mk (Stores.mk [] [] true true) [] [])).1.metrics =
      (run_steps (fun _ _ => .ok [("raw", 1)]) true ["extract", "transform"]
        (fun _ => 1) [("file", 10)] ["extract", "transform"]
        (RunState.mk (Stores.mk [] [] true true) [] [])).1.metrics := by
  have h := c8_cleanup_frame (fun _ _ => .ok [("raw", 1)]) true ["extract", "transform"]
    (fun _ => 1) [("file", 10)] ["extract", "transform"]
    (RunState.mk (Stores.mk [] [] true true) [] [])
    ((run_steps (fun _ _ => .ok [("raw", 1)]) true ["extract", "transform"]
      (fun _ => 1) [("file", 10)] ["extract", "transform"]
      (RunState.mk (Stores.mk [] [] true true) [] [])).1)
    (by decide)
  exact ⟨h.1, h.2.1, h.2.2.1, h.2.2.2.2.2⟩

/-- Counterexample to claim C9 as stated: with `save_metadata` absent or
disabled in the configuration (its default is `False`), a fully
successful two-step run appends no metadata records at all and does not
drop the predecessor's in-memory output — both actions are guarded by the
`save_metadata` flag in `execute_pipeline`. -/
theorem c9_counterexample :
    (run_steps (fun _ _ => .ok [("raw", 1)]) false ["extract", "transform"]
      (fun _ => 1) [("file", 10)] ["extract", "transform"]
      (RunState.mk (Stores.mk [] [] true true) [] [])).2 = none ∧
    (run_steps (fun _ _ => .ok [("raw", 1)]) false ["extract", "transform"]
      (fun _ => 1) [("file", 10)] ["extract", "transform"]
      (RunState.mk (Stores.mk [] [] true true) [] [])).1.metrics = [] ∧
    alist_lookup "extract"
      (run_steps (fun _ _ => .ok [("raw", 1)]) false ["extract", "transform"]
        (fun _ => 1) [("file", 10)] ["extract", "transform"]
        (RunState.mk (Stores.mk [] [] true true) [] [])).1.data = some [("raw", 1)] := by
  refine ⟨by decide, by decide, by decide⟩

/-- Claim C9 (amended): when metadata saving is enabled in the
configuration, a step that completes successfully (here: a single-step
plan with a registered handler and a predecessor whose payload is in the
working set) appends a `completed` metadata record carrying the
predecessor's artifact descriptors as inputs, the step's own artifact
descriptors as outputs and the measured duration, and then drops the
predecessor's in-memory output from the working data set. -/
theorem c9_completed_metadata
    (impl : String → PipeInput → Except String Payload)
    (pipeline : List String) (dur : String → Nat) (input_desc : List (String × Nat))
    (step : String) (rs : RunState) (p prevP : Payload)
    (hprev : get_previous_state step pipeline ≠ "")
    (hlook : alist_lookup (get_previous_state step pipeline) rs.data = some prevP)
    (himpl : impl step (.payload prevP) = .ok p)
    (hreg : step_names.contains step = true) :
    (run_steps impl true pipeline dur input_desc [step] rs).2 = none ∧
    alist_lookup step (run_steps impl true pipeline dur input_desc [step] rs).1.metrics =
      some ((alist_lookup step rs.metrics).getD [] ++
        [Metadata.mk step "completed" (dur step) prevP p none]) ∧
    alist_lookup (get_previous_state step pipeline)
      (run_steps impl true pipeline dur input_desc [step] rs).1.data = none := by
  have hpb : (get_previous_state step pipeline == "") = false := by simpa using hprev
  have hres : resolve_input (get_previous_state step pipeline) rs.data = .ok (.payload prevP) := by
    simp [resolve_input, hpb, hlook]
  have hmem : step ∈ step_names := by simpa using hreg
  have hexec : execute_step impl step (.payload prevP) rs.stores =
      (.ok p, create_checkpoint (save_step_data p step rs.stores) step) := by
    simp [execute_step, hmem, himpl]
  simp only [run_steps, hres, hexec]
  refine ⟨by trivial, ?_, ?_⟩
  · simp [after_success, save_step_metadata, hpb, hlook, alist_lookup_insert_self]
  · simp [after_success, hpb, alist_lookup_erase_self]

/-- Witness for C9 (amended): `transform` after `extract` in a two-step
pipeline, with the predecessor payload in the working set: the metadata
history of `transform` gains the `completed` record and the `extract`
payload is dropped. -/
theorem c9_witness :
    (run_steps (fun _ _ => .ok [("t", 3)]) true ["extract", "transform"] (fun _ => 5)
      [("file", 10)] ["transform"]
      (RunState.mk (Stores.mk [] [] true true) [] [("extract", [("raw", 2)])])).2 = none ∧
    alist_lookup "transform"
      (run_steps (fun _ _ => .ok [("t", 3)]) true ["extract", "transform"] (fun _ => 5)
        [("file", 10)] ["transform"]
        (RunState.mk (Stores.mk [] [] true true) [] [("extract", [("raw", 2)])])).1.metrics =
      some [Metadata.mk "transform" "completed" 5 [("raw", 2)] [("t", 3)] none] ∧
    alist_lookup "extract"
      (run_steps (fun _ _ => .ok [("t", 3)]) true ["extract", "transform"] (fun _ => 5)
        [("file", 10)] ["transform"]
        (RunState.mk (Stores.mk [] [] true true) [] [("extract", [("raw", 2)])])).1.data =
      none := by
  have h := c9_completed_metadata (fun _ _ => .ok [("t", 3)]) ["extract", "transform"]
    (fun _ => 5) [("file", 10)] "transform"
    (RunState.mk (Stores.mk [] [] true true) [] [("extract", [("raw", 2)])])
    [("t", 3)] [("raw", 2)] (by decide) (by decide) rfl (by decide)
  exact ⟨h.1, h.2.1.trans (by decide), by
    have h3 := h.2.2
    simpa using h3⟩

end WeatherETL
